import Mathlib

/-!
Verification of the model-intel-core library: the benchmark parser and fuzzy
matcher (benchmarks module) and the OpenRouter model normalization helpers
(openRouterModels module).  JS numbers are modelled as exact rationals; JS
strings as Lean strings (lists of characters), with ASCII case conversion.
-/

namespace ModelIntel

/-! ### Character and string helpers (JS built-ins, ASCII fragment) -/

/-- ASCII upper/lower letter pairs; models JS case conversion restricted to
ASCII (the slugs, ids and names this library case-converts are ASCII). -/
def casePairs : List (Char × Char) :=
  [('A', 'a'), ('B', 'b'), ('C', 'c'), ('D', 'd'), ('E', 'e'), ('F', 'f'),
   ('G', 'g'), ('H', 'h'), ('I', 'i'), ('J', 'j'), ('K', 'k'), ('L', 'l'),
   ('M', 'm'), ('N', 'n'), ('O', 'o'), ('P', 'p'), ('Q', 'q'), ('R', 'r'),
   ('S', 's'), ('T', 't'), ('U', 'u'), ('V', 'v'), ('W', 'w'), ('X', 'x'),
   ('Y', 'y'), ('Z', 'z')]

def jsToLowerChar (c : Char) : Char :=
  ((casePairs.find? (fun p => p.1 == c)).map (fun p => p.2)).getD c

def jsToUpperChar (c : Char) : Char :=
  ((casePairs.find? (fun p => p.2 == c)).map (fun p => p.1)).getD c

/-- JS toLowerCase (ASCII fragment). -/
def lowerStr (s : String) : String := ⟨s.data.map jsToLowerChar⟩

/-- charAt(0).toUpperCase() + slice(1), as in extractProvider's fallback. -/
def capitalizeFirst (s : String) : String :=
  match s.data with
  | [] => ""
  | c :: rest => ⟨jsToUpperChar c :: rest⟩

/-- JS String.split with a one-character separator: "".split(sep) gives [""];
separators at either end produce empty groups.  The result is never empty. -/
def jsSplit (sep : Char) : List Char → List (List Char)
  | [] => [[]]
  | c :: rest =>
      if c = sep then [] :: jsSplit sep rest
      else
        match jsSplit sep rest with
        | [] => [[c]]
        | g :: gs => (c :: g) :: gs

/-- JS split("->"), used on modality strings. -/
def splitArrow : List Char → List (List Char)
  | [] => [[]]
  | '-' :: '>' :: rest => [] :: splitArrow rest
  | c :: rest =>
      match splitArrow rest with
      | [] => [[c]]
      | g :: gs => (c :: g) :: gs

def leadsWith : List Char → List Char → Bool
  | [], _ => true
  | _ :: _, [] => false
  | a :: as, b :: bs => a == b && leadsWith as bs

def suffixes : List Char → List (List Char)
  | [] => [[]]
  | c :: rest => (c :: rest) :: suffixes rest

/-- JS String.includes: substring test (hay.includes(needle)). -/
def jsIncludes (hay needle : List Char) : Bool :=
  (suffixes hay).any (fun s => leadsWith needle s)

def jsIncludesStr (hay needle : String) : Bool := jsIncludes hay.data needle.data

/-! ### JSON-like runtime values -/

/-- JS runtime values of a parsed JSON body: null, booleans, numbers
(modelled as exact rationals), strings, arrays, string-keyed objects. -/
inductive JValue where
  | null : JValue
  | bool (b : Bool) : JValue
  | num (q : ℚ) : JValue
  | str (s : String) : JValue
  | arr (elems : List JValue) : JValue
  | obj (fields : List (String × JValue)) : JValue

/-- Own-property lookup on an object (first binding wins; the prototype
chain of JS objects is not modelled). -/
def jGet (fields : List (String × JValue)) (key : String) : Option JValue :=
  (fields.find? (fun p => p.1 == key)).map (fun p => p.2)

/-- item[key]: property access.  The error case is the JS TypeError raised by
property access on null; the inner Option is presence (undefined when none).
Primitive and array receivers have none of the probed keys. -/
def jsIndex (item : JValue) (key : String) : Except Unit (Option JValue) :=
  match item with
  | .null => .error ()
  | .obj fields => .ok (jGet fields key)
  | _ => .ok none

/-- getValue(item, ...keys): the first key whose value is defined. -/
def getValue (item : JValue) : List String → Except Unit (Option JValue)
  | [] => .ok none
  | k :: ks =>
      match jsIndex item k with
      | .error e => .error e
      | .ok (some v) => .ok (some v)
      | .ok none => getValue item ks

def digitsToNat (ds : List Char) : ℕ :=
  ds.foldl (fun n c => 10 * n + (c.toNat - 48)) 0

def applyExponent (mant : ℚ) (rest : List Char) : ℚ :=
  let signAndRest : Bool × List Char :=
    match rest with
    | '-' :: r => (true, r)
    | '+' :: r => (false, r)
    | _ => (false, rest)
  let eds := signAndRest.2.takeWhile (fun c => c.isDigit)
  if eds.isEmpty then mant
  else if signAndRest.1 then mant / ((10 : ℚ) ^ digitsToNat eds)
  else mant * ((10 : ℚ) ^ digitsToNat eds)

/-- Modelled JS builtin: parseFloat.  Skips leading whitespace, parses an
optional sign, digits with optional fraction and exponent; trailing garbage
is ignored; no digits at all gives NaN, modelled as none.  (The Infinity
literals and double rounding of the builtin are not modelled; no claim
depends on them.) -/
def jsParseFloat (s : String) : Option ℚ :=
  let cs0 := s.data.dropWhile (fun c => c.isWhitespace)
  let signAndRest : ℚ × List Char :=
    match cs0 with
    | '-' :: rest => (-1, rest)
    | '+' :: rest => (1, rest)
    | _ => (1, cs0)
  let sgn := signAndRest.1
  let cs1 := signAndRest.2
  let ip := cs1.takeWhile (fun c => c.isDigit)
  let cs2 := cs1.dropWhile (fun c => c.isDigit)
  let fracAndRest : List Char × List Char :=
    match cs2 with
    | '.' :: rest => (rest.takeWhile (fun c => c.isDigit), rest.dropWhile (fun c => c.isDigit))
    | _ => ([], cs2)
  let fp := fracAndRest.1
  let cs3 := fracAndRest.2
  if ip.isEmpty && fp.isEmpty then none
  else
    let mant : ℚ := (digitsToNat ip : ℚ) + (digitsToNat fp : ℚ) / ((10 : ℚ) ^ fp.length)
    let value : ℚ :=
      match cs3 with
      | 'e' :: rest => applyExponent mant rest
      | 'E' :: rest => applyExponent mant rest
      | _ => mant
    some (sgn * value)

def getString (item : JValue) (keys : List String) : Except Unit String :=
  match getValue item keys with
  | .error e => .error e
  | .ok (some (.str s)) => .ok s
  | .ok _ => .ok ""

def getNumber (item : JValue) (keys : List String) : Except Unit (Option ℚ) :=
  match getValue item keys with
  | .error e => .error e
  | .ok (some (.num q)) => .ok (some q)
  | .ok (some (.str s)) => .ok (jsParseFloat s)
  | .ok _ => .ok none

/-- The walk of getNestedString/getNestedNumber: each step requires the
current value to be a non-null object owning the path part (the paths used
have no numeric parts, so array receivers fail the `part in current` test). -/
def walkPath : JValue → List String → Option JValue
  | v, [] => some v
  | .obj fields, p :: ps =>
      match jGet fields p with
      | some v => walkPath v ps
      | none => none
  | _, _ :: _ => none

def getNestedString (item : JValue) (path : String) : String :=
  let parts := (jsSplit '.' path.data).map (fun l => (⟨l⟩ : String))
  match walkPath item parts with
  | some (.str s) => s
  | _ => ""

def getNestedNumber (item : JValue) (path : String) : Option ℚ :=
  let parts := (jsSplit '.' path.data).map (fun l => (⟨l⟩ : String))
  match walkPath item parts with
  | some (.num q) => some q
  | some (.str s) => jsParseFloat s
  | _ => none

/-! ### Benchmark parser -/

structure ModelBenchmark where
  modelName : String
  creator : String
  intelligenceIndex : Option ℚ
  codingIndex : Option ℚ
  mathIndex : Option ℚ
  outputSpeed : Option ℚ
  latency : Option ℚ
  priceInput : Option ℚ
  priceOutput : Option ℚ
deriving DecidableEq

/-- extractModelsArray: the value itself when it is an array, else the first
of the data/models/results properties that is an array, else empty. -/
def extractModelsArray (raw : JValue) : List JValue :=
  match raw with
  | .arr xs => xs
  | .obj fields =>
      match jGet fields "data" with
      | some (.arr xs) => xs
      | _ =>
          match jGet fields "models" with
          | some (.arr xs) => xs
          | _ =>
              match jGet fields "results" with
              | some (.arr xs) => xs
              | _ => []
  | _ => []

/-- The nested-path-with-flat-alias fallback for a numeric field: the ??
of the source (getNestedNumber never throws; getNumber can only throw on a
null item). -/
def numAlias (item : JValue) (path : String) (keys : List String) : Except Unit (Option ℚ) :=
  match getNestedNumber item path with
  | some q => pure (some q)
  | none => getNumber item keys

/-- The body of the .map in parseBenchmarks: resolves each field through its
alias list; null when a required field is missing. -/
def parseItem (item : JValue) : Except Unit (Option ModelBenchmark) := do
  let modelName ← getString item ["model_name", "name", "model", "modelName", "display_name"]
  if modelName = "" then return none
  let creator ←
    (if getNestedString item "model_creator.name" ≠ "" then
       pure (getNestedString item "model_creator.name")
     else getString item ["creator", "provider", "organization"])
  if creator = "" then return none
  let intelligenceIndex ← numAlias item "evaluations.artificial_analysis_intelligence_index"
    ["intelligence_index", "intelligenceIndex"]
  let codingIndex ← numAlias item "evaluations.artificial_analysis_coding_index"
    ["coding_index", "codingIndex"]
  let mathIndex ← numAlias item "evaluations.artificial_analysis_math_index"
    ["math_index", "mathIndex"]
  let outputSpeed ← getNumber item ["median_output_tokens_per_second", "output_speed", "outputSpeed"]
  let latency ← getNumber item ["median_time_to_first_token_seconds", "latency", "ttft"]
  let priceInput ← getNumber item ["price_input", "priceInput", "input_price"]
  let priceOutput ← getNumber item ["price_output", "priceOutput", "output_price"]
  return some ⟨modelName, creator, intelligenceIndex, codingIndex, mathIndex,
    outputSpeed, latency, priceInput, priceOutput⟩

/-- parseBenchmarks: extract the model list, map each item, drop the nulls.
The error case is the TypeError the JS code raises when an item is null. -/
def parseBenchmarks (raw : JValue) : Except Unit (List ModelBenchmark) :=
  let models := extractModelsArray raw
  if models.isEmpty then .ok []
  else do
    let parsed ← models.mapM parseItem
    return parsed.filterMap id

/-! ### Benchmark matcher -/

/-- The characters of the \s class matched by the source regexes (ASCII
fragment of JS \s). -/
def isJsSpace (c : Char) : Bool :=
  c == ' ' || c == '\t' || c == '\n' || c == '\r' || c == '\x0b' || c == '\x0c'

/-- .replace(/\s+/g, " "): collapse whitespace runs to single spaces.  The
boolean tracks whether the previous character was inside a run. -/
def collapseSpaces : List Char → Bool → List Char
  | [], _ => []
  | c :: rest, inRun =>
      if isJsSpace c then
        if inRun then collapseSpaces rest true
        else ' ' :: collapseSpaces rest true
      else c :: collapseSpaces rest false

def trimSpaces (l : List Char) : List Char :=
  ((l.dropWhile (fun c => isJsSpace c)).reverse.dropWhile (fun c => isJsSpace c)).reverse

/-- normalizeForMatch: lower-case, replace every character outside
[a-z0-9\s] by a space, collapse whitespace, trim. -/
def normalizeForMatch (s : String) : List Char :=
  let lowered := s.data.map jsToLowerChar
  let replaced := lowered.map (fun c =>
    if ('a' ≤ c ∧ c ≤ 'z') ∨ ('0' ≤ c ∧ c ≤ '9') ∨ isJsSpace c then c else ' ')
  trimSpaces (collapseSpaces replaced false)

def stopWords : List (List Char) :=
  (["ai", "model", "v1", "free", "pro", "plus", "chat", "instruct", "preview"].map
    (fun s => String.data s))

def extractModelTokens (s : String) : List (List Char) :=
  (jsSplit ' ' (normalizeForMatch s)).filter
    (fun tok => decide (1 < tok.length) && !(stopWords.contains tok))

/-- The inner-loop test: a token of set 1 is matched by a token of set 2 when
they are equal or one contains the other. -/
def tokenMatches (t1 t2 : List Char) : Bool :=
  t1 == t2 || jsIncludes t1 t2 || jsIncludes t2 t1

/-- The matches counter: the break ensures each token of set 1 counts at
most once. -/
def countMatches (tokens1 tokens2 : List (List Char)) : ℕ :=
  tokens1.countP (fun t1 => tokens2.any (fun t2 => tokenMatches t1 t2))

def calculateSimilarity (name1 name2 : String) : ℚ :=
  let tokens1 := extractModelTokens name1
  let tokens2 := extractModelTokens name2
  if tokens1.isEmpty || tokens2.isEmpty then 0
  else (countMatches tokens1 tokens2 : ℚ) / ((max tokens1.length tokens2.length : ℕ) : ℚ)

/-- The provider string computed at the top of matchBenchmark:
modelId.split("/")[0]?.toLowerCase() || "".  jsSplit never returns an empty
list, and the || "" of the source is the identity (lower-casing the first
group is empty exactly when the group is). -/
def matchProvider (modelId : String) : String :=
  match jsSplit '/' modelId.data with
  | [] => ""
  | p :: _ => ⟨p.map jsToLowerChar⟩

/-- The per-record score of the matchBenchmark loop body: name similarity,
boosted by 1.2 when creator and provider contain one another. -/
def benchScore (modelId modelName : String) (b : ModelBenchmark) : ℚ :=
  let provider := matchProvider modelId
  let creatorLower := lowerStr b.creator
  let creatorMatch := jsIncludesStr creatorLower provider || jsIncludesStr provider creatorLower
  let nameSimilarity := calculateSimilarity modelName b.modelName
  if creatorMatch then nameSimilarity * 1.2 else nameSimilarity

/-- The accumulator loop of matchBenchmark: bestMatch/bestScore start as
undefined and 0; a record is taken only when its score strictly exceeds the
best and meets the threshold. -/
def matchGo (f : ModelBenchmark → ℚ) (t : ℚ) :
    List ModelBenchmark → Option ModelBenchmark → ℚ → Option ModelBenchmark
  | [], bestMatch, _ => bestMatch
  | b :: rest, bestMatch, bestScore =>
      if bestScore < f b ∧ t ≤ f b then matchGo f t rest (some b) (f b)
      else matchGo f t rest bestMatch bestScore

/-- matchBenchmark; the source defaults minMatchThreshold to 0.5 at the call
boundary, made explicit here. -/
def matchBenchmark (modelId modelName : String) (benchmarks : List ModelBenchmark)
    (minMatchThreshold : ℚ) : Option ModelBenchmark :=
  if benchmarks.isEmpty then none
  else matchGo (fun b => benchScore modelId modelName b) minMatchThreshold benchmarks none 0

/-- Proof device: the same loop carrying only the best score, returning the
record the loop finally holds. -/
def pickBest (f : ModelBenchmark → ℚ) (t : ℚ) : ℚ → List ModelBenchmark → Option ModelBenchmark
  | _, [] => none
  | bs, b :: rest =>
      if bs < f b ∧ t ≤ f b then
        match pickBest f t (f b) rest with
        | none => some b
        | some r => some r
      else pickBest f t bs rest

/-! ### OpenRouter model helpers -/

def PROVIDER_MAP : List (String × String) :=
  [("openai", "OpenAI"), ("anthropic", "Anthropic"), ("google", "Google"),
   ("meta-llama", "Meta"), ("mistralai", "Mistral"), ("cohere", "Cohere"),
   ("deepseek", "DeepSeek"), ("perplexity", "Perplexity"), ("x-ai", "xAI"),
   ("amazon", "Amazon"), ("microsoft", "Microsoft"), ("nvidia", "NVIDIA"),
   ("qwen", "Qwen"), ("moonshotai", "Moonshot AI"), ("minimax", "MiniMax"),
   ("z-ai", "Z-AI")]

/-- PROVIDER_MAP[slug]: plain own-property lookup (every stored display name
is a non-empty, hence truthy, string; prototype-chain lookups are not
modelled). -/
def providerLookup (slug : String) : Option String :=
  (PROVIDER_MAP.find? (fun p => p.1 == slug)).map (fun p => p.2)

/-- parts[0].toLowerCase() of extractProvider. -/
def firstSlug (modelId : String) : String :=
  ⟨((jsSplit '/' modelId.data).headD []).map jsToLowerChar⟩

def extractProvider (modelId : String) : String :=
  if (jsSplit '/' modelId.data).length < 2 then "Unknown"
  else
    match providerLookup (firstSlug modelId) with
    | some display => display
    | none => capitalizeFirst (firstSlug modelId)

/-- modality?.split("->")[0] || "". -/
def modalityInput (modality : Option String) : List Char :=
  match modality with
  | none => []
  | some m => (splitArrow m.data).headD []

/-- modality?.split("->")[1] || "". -/
def modalityOutput (modality : Option String) : List Char :=
  match modality with
  | none => []
  | some m =>
      match splitArrow m.data with
      | _ :: p :: _ => p
      | _ => []

def supportsVision (modality : Option String) : Bool :=
  jsIncludes (modalityInput modality) "image".data

def supportsAudio (modality : Option String) : Bool :=
  jsIncludes (modalityInput modality) "audio".data

def supportsTools (supportedParams : Option (List String)) : Bool :=
  match supportedParams with
  | some ps => ps.contains "tools"
  | none => false

def imageGenKeywords : List String :=
  ["image", "flux", "dall-e", "dalle", "stable-diffusion", "sd-", "sdxl",
   "midjourney", "imagen", "ideogram", "playground", "kandinsky",
   "dreamshaper", "deliberate", "proteus", "juggernaut"]

def supportsImageGeneration (modality : Option String) (modelId : Option String)
    (modelName : Option String) (capabilities : Option (List String)) : Bool :=
  let capHit :=
    match capabilities with
    | some caps =>
        !caps.isEmpty &&
          (caps.map lowerStr).any (fun c =>
            jsIncludesStr c "image-generation" || jsIncludesStr c "image" || c == "images")
    | none => false
  if capHit then true
  else if jsIncludes (modalityOutput modality) "image".data then true
  else
    let combined := lowerStr (modelName.getD "") ++ " " ++ lowerStr (modelId.getD "")
    imageGenKeywords.any (fun kw => jsIncludesStr combined kw)

def supportsFileInput (modality : Option String) (supportedParams : Option (List String)) : Bool :=
  supportsVision modality ||
    (match supportedParams with
     | some ps => ps.contains "file"
     | none => false)

def searchKeywords : List String :=
  ["sonar", "perplexity", "search", "web-search", "web search", "retrieval", "browse"]

def supportsSearchCapability (modelId : Option String) (modelName : Option String)
    (capabilities : Option (List String)) (supportedParams : Option (List String)) : Bool :=
  let capValues := (capabilities.getD []).map lowerStr
  let paramValues := (supportedParams.getD []).map lowerStr
  if capValues.any (fun c =>
      jsIncludesStr c "search" || jsIncludesStr c "web" || jsIncludesStr c "retrieval" ||
        jsIncludesStr c "browse") then true
  else if paramValues.any (fun p =>
      jsIncludesStr p "search" || jsIncludesStr p "web" || jsIncludesStr p "browse" ||
        jsIncludesStr p "retrieval") then true
  else
    let combined := lowerStr ((modelId.getD "") ++ " " ++ (modelName.getD ""))
    searchKeywords.any (fun kw => jsIncludesStr combined kw)

/-- The lower-case ASCII letters (right column of casePairs). -/
def azLower : List Char := casePairs.map (fun p => p.2)

/-! ### Helper lemmas: splitting and case conversion -/

theorem jsSplit_ne_nil (sep : Char) (l : List Char) : jsSplit sep l ≠ [] := by
  induction l with
  | nil => simp [jsSplit]
  | cons c rest ih =>
      simp only [jsSplit]
      split
      · simp
      · split <;> simp

theorem jsSplit_headD (sep : Char) (l : List Char) :
    (jsSplit sep l).headD [] = l.takeWhile (fun c => c != sep) := by
  induction l with
  | nil => simp [jsSplit]
  | cons c rest ih =>
      by_cases h : c = sep
      · simp [jsSplit, h, List.takeWhile_cons]
      · obtain ⟨g, gs, hg⟩ : ∃ g gs, jsSplit sep rest = g :: gs := by
          cases hr : jsSplit sep rest with
          | nil => exact absurd hr (jsSplit_ne_nil sep rest)
          | cons g gs => exact ⟨g, gs, rfl⟩
        rw [hg] at ih
        simp only [List.headD] at ih
        simp [jsSplit, h, hg, List.takeWhile_cons, ih]

theorem jsSplit_no_sep (sep : Char) (l : List Char) (h : ∀ c ∈ l, c ≠ sep) :
    jsSplit sep l = [l] := by
  induction l with
  | nil => rfl
  | cons c rest ih =>
      have hc : ¬ c = sep := h c (List.mem_cons_self c rest)
      have hr := ih (fun x hx => h x (List.mem_cons_of_mem c hx))
      simp [jsSplit, hc, hr]

theorem jsSplit_append (sep : Char) (l1 l2 : List Char) (h : ∀ c ∈ l1, c ≠ sep) :
    jsSplit sep (l1 ++ sep :: l2) = l1 :: jsSplit sep l2 := by
  induction l1 with
  | nil => simp [jsSplit]
  | cons c r ih =>
      have hc : ¬ c = sep := h c (List.mem_cons_self c r)
      have hr := ih (fun x hx => h x (List.mem_cons_of_mem c hx))
      simp [jsSplit, hc, hr]

theorem jsToLowerChar_slash (c : Char) (h : jsToLowerChar c = '/') : c = '/' := by
  unfold jsToLowerChar at h
  cases hf : casePairs.find? (fun p => p.1 == c) with
  | none => rw [hf] at h; simpa using h
  | some p =>
      rw [hf] at h
      simp only [Option.map_some', Option.getD_some] at h
      have hmem := List.mem_of_find?_eq_some hf
      have hall : ∀ q ∈ casePairs, q.2 ≠ '/' := by decide
      exact absurd h (hall p hmem)

theorem jsToUpperChar_ne : ∀ c ∈ azLower, jsToUpperChar c ≠ c := by decide

theorem providerLookup_self : ∀ p ∈ PROVIDER_MAP, providerLookup p.1 = some p.2 := by decide

theorem providerLookup_facts : ∀ p ∈ PROVIDER_MAP,
    p.2 ≠ "" ∧ p.2 ≠ p.1 ∧ ∀ c ∈ (p.1 : String).data, c ≠ '/' := by decide

theorem providerLookup_mem (slug v : String) (h : providerLookup slug = some v) :
    ∃ p ∈ PROVIDER_MAP, p.1 = slug ∧ p.2 = v := by
  unfold providerLookup at h
  cases hf : PROVIDER_MAP.find? (fun p => p.1 == slug) with
  | none => rw [hf] at h; exact Option.noConfusion h
  | some p =>
      rw [hf] at h
      simp only [Option.map_some', Option.getD_some, Option.some.injEq] at h
      have hmem := List.mem_of_find?_eq_some hf
      have hpred := List.find?_some hf
      simp only [beq_iff_eq] at hpred
      exact ⟨p, hmem, hpred, h⟩

/-! ### Helper lemmas: the matcher loop -/

theorem pickBest_none_iff (f : ModelBenchmark → ℚ) (t : ℚ) :
    ∀ (l : List ModelBenchmark) (bs : ℚ),
      pickBest f t bs l = none ↔ ∀ b ∈ l, ¬ (bs < f b ∧ t ≤ f b) := by
  intro l
  induction l with
  | nil => intro bs; simp [pickBest]
  | cons b rest ih =>
      intro bs
      simp only [pickBest]
      by_cases h : bs < f b ∧ t ≤ f b
      · rw [if_pos h]
        constructor
        · intro hcontra
          exfalso
          cases hp : pickBest f t (f b) rest with
          | none => rw [hp] at hcontra; exact Option.noConfusion hcontra
          | some r => rw [hp] at hcontra; exact Option.noConfusion hcontra
        · intro hall
          exact absurd h (hall b (List.mem_cons_self b rest))
      · rw [if_neg h, ih bs]
        constructor
        · intro hall x hx
          rcases List.mem_cons.mp hx with rfl | hx2
          · exact h
          · exact hall x hx2
        · intro hall x hx
          exact hall x (List.mem_cons_of_mem b hx)

theorem pickBest_spec (f : ModelBenchmark → ℚ) (t : ℚ) :
    ∀ (l : List ModelBenchmark) (bs : ℚ) (r : ModelBenchmark),
      pickBest f t bs l = some r →
      r ∈ l ∧ bs < f r ∧ t ≤ f r ∧
        (∀ b ∈ l, bs < f b → t ≤ f b → f b ≤ f r) ∧
        ∃ l1 l2, l = l1 ++ r :: l2 ∧ ∀ b ∈ l1, f b < f r := by
  intro l
  induction l with
  | nil => intro bs r h; exact Option.noConfusion h
  | cons b rest ih =>
      intro bs r h
      simp only [pickBest] at h
      by_cases hb : bs < f b ∧ t ≤ f b
      · rw [if_pos hb] at h
        cases hp : pickBest f t (f b) rest with
        | none =>
            rw [hp] at h
            obtain rfl : b = r := Option.some.inj h
            rw [pickBest_none_iff] at hp
            refine ⟨List.mem_cons_self b rest, hb.1, hb.2, ?_, [], rest, rfl, by simp⟩
            intro x hx hbs ht
            rcases List.mem_cons.mp hx with rfl | hx2
            · exact le_refl _
            · rcases le_or_lt (f x) (f b) with h1 | h2
              · exact h1
              · exact absurd ⟨h2, ht⟩ (hp x hx2)
        | some r2 =>
            rw [hp] at h
            obtain rfl : r2 = r := Option.some.inj h
            obtain ⟨hmem, hlt, hle, hmax, l1, l2, heq, hfirst⟩ := ih (f b) r2 hp
            refine ⟨List.mem_cons_of_mem b hmem, lt_trans hb.1 hlt, hle, ?_,
              b :: l1, l2, by rw [heq, List.cons_append], ?_⟩
            · intro x hx hbs ht
              rcases List.mem_cons.mp hx with rfl | hx2
              · exact le_of_lt hlt
              · rcases le_or_lt (f x) (f b) with h1 | h2
                · exact le_trans h1 (le_of_lt hlt)
                · exact hmax x hx2 h2 ht
            · intro x hx
              rcases List.mem_cons.mp hx with rfl | hx2
              · exact hlt
              · exact hfirst x hx2
      · rw [if_neg hb] at h
        obtain ⟨hmem, hlt, hle, hmax, l1, l2, heq, hfirst⟩ := ih bs r h
        refine ⟨List.mem_cons_of_mem b hmem, hlt, hle, ?_,
          b :: l1, l2, by rw [heq, List.cons_append], ?_⟩
        · intro x hx hbs ht
          rcases List.mem_cons.mp hx with rfl | hx2
          · exact absurd ⟨hbs, ht⟩ hb
          · exact hmax x hx2 hbs ht
        · intro x hx
          rcases List.mem_cons.mp hx with rfl | hx2
          · rcases not_and_or.mp hb with h1 | h2
            · exact lt_of_le_of_lt (le_of_not_lt h1) hlt
            · exact lt_of_lt_of_le (lt_of_not_le h2) hle
          · exact hfirst x hx2

theorem matchGo_eq_pickBest (f : ModelBenchmark → ℚ) (t : ℚ) :
    ∀ (l : List ModelBenchmark) (best : Option ModelBenchmark) (bs : ℚ),
      matchGo f t l best bs =
        match pickBest f t bs l with
        | none => best
        | some r => some r := by
  intro l
  induction l with
  | nil => intro best bs; rfl
  | cons b rest ih =>
      intro best bs
      simp only [matchGo, pickBest]
      by_cases h : bs < f b ∧ t ≤ f b
      · rw [if_pos h, if_pos h, ih]
        cases pickBest f t (f b) rest <;> rfl
      · rw [if_neg h, if_neg h, ih]

theorem matchBenchmark_eq_pickBest (modelId modelName : String)
    (l : List ModelBenchmark) (t : ℚ) :
    matchBenchmark modelId modelName l t =
      pickBest (fun b => benchScore modelId modelName b) t 0 l := by
  cases l with
  | nil => rfl
  | cons b rest =>
      simp only [matchBenchmark, List.isEmpty_cons, Bool.false_eq_true, if_false]
      rw [matchGo_eq_pickBest]
      cases pickBest (fun b => benchScore modelId modelName b) t 0 (b :: rest) <;> rfl

/-! ### Claim C1: matchBenchmark returns the earliest maximum -/

/-- C1 (amended): matchBenchmark returns no match for an empty list; it
returns no match exactly when no record scores both at or above the
threshold and strictly above zero; a returned record meets the threshold
with a positive score, its score is maximal among all threshold-meeting
records, and every record strictly before it in list order scores strictly
less — so a later record whose score equals the best never replaces it. -/
theorem matchBenchmark_earliest_max (modelId modelName : String)
    (l : List ModelBenchmark) (t : ℚ) :
    (l = [] → matchBenchmark modelId modelName l t = none) ∧
    (matchBenchmark modelId modelName l t = none ↔
      ∀ b ∈ l, benchScore modelId modelName b ≤ 0 ∨ benchScore modelId modelName b < t) ∧
    ∀ r, matchBenchmark modelId modelName l t = some r →
      r ∈ l ∧ t ≤ benchScore modelId modelName r ∧ 0 < benchScore modelId modelName r ∧
        (∀ b ∈ l, t ≤ benchScore modelId modelName b →
          benchScore modelId modelName b ≤ benchScore modelId modelName r) ∧
        ∃ l1 l2, l = l1 ++ r :: l2 ∧
          ∀ b ∈ l1, benchScore modelId modelName b < benchScore modelId modelName r := by
  refine ⟨?_, ?_, ?_⟩
  · rintro rfl; rfl
  · rw [matchBenchmark_eq_pickBest, pickBest_none_iff]
    constructor
    · intro hall b hb
      rcases not_and_or.mp (hall b hb) with h1 | h2
      · exact Or.inl (le_of_not_lt h1)
      · exact Or.inr (lt_of_not_le h2)
    · intro hall b hb
      rcases hall b hb with h1 | h2
      · exact fun hc => absurd hc.1 (not_lt_of_le h1)
      · exact fun hc => absurd hc.2 (not_le_of_lt h2)
  · intro r h
    rw [matchBenchmark_eq_pickBest] at h
    obtain ⟨hmem, hpos, hth, hmax, l1, l2, heq, hfirst⟩ :=
      pickBest_spec (fun b => benchScore modelId modelName b) t l 0 r h
    refine ⟨hmem, hth, hpos, ?_, l1, l2, heq, hfirst⟩
    intro b hb ht
    rcases le_or_lt (benchScore modelId modelName b) 0 with h1 | h2
    · exact le_trans h1 (le_of_lt hpos)
    · exact hmax b hb h2 ht

/-- C1 counterexample: at threshold 0, a record whose score is 0 is at or
above the threshold, yet matchBenchmark returns no match, because the loop
only takes scores strictly above the starting best of 0. -/
theorem matchBenchmark_threshold_zero_counterexample :
    benchScore "" "" ⟨"", "c", none, none, none, none, none, none, none⟩ = 0 ∧
    matchBenchmark "" "" [⟨"", "c", none, none, none, none, none, none, none⟩] 0 = none := by
  have htok : extractModelTokens "" = [] := by decide
  have hsim : calculateSimilarity "" "" = 0 := by
    simp [calculateSimilarity, htok]
  have hscore : benchScore "" "" ⟨"", "c", none, none, none, none, none, none, none⟩ = 0 := by
    simp only [benchScore]
    split <;> simp [hsim]
  refine ⟨hscore, ?_⟩
  rw [matchBenchmark_eq_pickBest, pickBest_none_iff]
  intro b hb
  rw [List.mem_singleton] at hb
  subst hb
  simp [hscore]

/-- Witness for C1 at a concrete matching record. -/
theorem matchBenchmark_earliest_max_witness :
    (⟨"Claude Haiku", "Anthropic", none, none, none, none, none, none, none⟩ : ModelBenchmark) ∈
      [(⟨"Claude Haiku", "Anthropic", none, none, none, none, none, none, none⟩ : ModelBenchmark)] ∧
    (1/2 : ℚ) ≤ benchScore "anthropic/claude" "Claude Haiku"
      ⟨"Claude Haiku", "Anthropic", none, none, none, none, none, none, none⟩ := by
  have htok : extractModelTokens "Claude Haiku" =
      [['c', 'l', 'a', 'u', 'd', 'e'], ['h', 'a', 'i', 'k', 'u']] := by decide
  have hcnt : countMatches [['c', 'l', 'a', 'u', 'd', 'e'], ['h', 'a', 'i', 'k', 'u']]
      [['c', 'l', 'a', 'u', 'd', 'e'], ['h', 'a', 'i', 'k', 'u']] = 2 := by decide
  have hsim : calculateSimilarity "Claude Haiku" "Claude Haiku" = 1 := by
    simp [calculateSimilarity, htok, hcnt]
  have hcm : (jsIncludesStr (lowerStr "Anthropic") (matchProvider "anthropic/claude") ||
      jsIncludesStr (matchProvider "anthropic/claude") (lowerStr "Anthropic")) = true := by decide
  have hscore : benchScore "anthropic/claude" "Claude Haiku"
      ⟨"Claude Haiku", "Anthropic", none, none, none, none, none, none, none⟩ = 6/5 := by
    simp only [benchScore]
    simp [hcm, hsim]
    norm_num
  have hmatch : matchBenchmark "anthropic/claude" "Claude Haiku"
      [⟨"Claude Haiku", "Anthropic", none, none, none, none, none, none, none⟩] (1/2) =
      some ⟨"Claude Haiku", "Anthropic", none, none, none, none, none, none, none⟩ := by
    rw [matchBenchmark_eq_pickBest]
    simp only [pickBest]
    rw [hscore]
    norm_num
  have h := (matchBenchmark_earliest_max "anthropic/claude" "Claude Haiku"
      [⟨"Claude Haiku", "Anthropic", none, none, none, none, none, none, none⟩] (1/2)).2.2
      ⟨"Claude Haiku", "Anthropic", none, none, none, none, none, none, none⟩ hmatch
  exact ⟨h.1, h.2.1⟩

/-! ### Claim C9: similarity and score bounds -/

/-- C9: calculateSimilarity lies in [0,1] — the matched-token count never
exceeds max of the two token-set sizes — and every per-record score of
matchBenchmark, creator boost included, lies in [0, 1.2]. -/
theorem calculateSimilarity_bounds :
    (∀ name1 name2 : String,
      countMatches (extractModelTokens name1) (extractModelTokens name2) ≤
        max (extractModelTokens name1).length (extractModelTokens name2).length ∧
      0 ≤ calculateSimilarity name1 name2 ∧ calculateSimilarity name1 name2 ≤ 1) ∧
    ∀ (modelId modelName : String) (b : ModelBenchmark),
      0 ≤ benchScore modelId modelName b ∧ benchScore modelId modelName b ≤ 1.2 := by
  have hcm : ∀ t1 t2 : List (List Char), countMatches t1 t2 ≤ max t1.length t2.length :=
    fun t1 t2 => le_trans (List.countP_le_length _) (le_max_left _ _)
  have hsim : ∀ name1 name2 : String,
      0 ≤ calculateSimilarity name1 name2 ∧ calculateSimilarity name1 name2 ≤ 1 := by
    intro name1 name2
    simp only [calculateSimilarity]
    split
    · norm_num
    · rename_i hcond
      have h1 : extractModelTokens name1 ≠ [] := by
        intro hx
        apply hcond
        simp [hx]
      have hpos : (0 : ℚ) <
          ((max (extractModelTokens name1).length (extractModelTokens name2).length : ℕ) : ℚ) := by
        have hl : 0 < (extractModelTokens name1).length := List.length_pos.mpr h1
        have hm : 0 < max (extractModelTokens name1).length (extractModelTokens name2).length :=
          lt_of_lt_of_le hl (le_max_left _ _)
        exact_mod_cast hm
      constructor
      · exact div_nonneg (Nat.cast_nonneg _) (le_of_lt hpos)
      · rw [div_le_one hpos]
        exact_mod_cast hcm _ _
  refine ⟨fun n1 n2 => ⟨hcm _ _, (hsim n1 n2).1, (hsim n1 n2).2⟩, ?_⟩
  intro modelId modelName b
  simp only [benchScore]
  split
  · constructor
    · exact mul_nonneg (hsim modelName b.modelName).1 (by norm_num)
    · calc calculateSimilarity modelName b.modelName * 1.2 ≤ 1 * 1.2 :=
          mul_le_mul_of_nonneg_right (hsim modelName b.modelName).2 (by norm_num)
        _ = 1.2 := one_mul _
  · exact ⟨(hsim modelName b.modelName).1, le_trans (hsim modelName b.modelName).2 (by norm_num)⟩

/-! ### Claim C3: the provider string of the creator boost -/

/-- C3 (amended): the provider used for the creator boost is the lower-cased
text before the first "/" of modelId; when modelId has no "/" it is the
whole lower-cased modelId (not the empty string); it is empty exactly when
the text before the first "/" is empty. -/
theorem matchProvider_spec (id : String) :
    matchProvider id = ⟨(id.data.takeWhile (fun c => c != '/')).map jsToLowerChar⟩ ∧
    ((( '/' ) ∉ id.data) → matchProvider id = lowerStr id) ∧
    (matchProvider id = "" ↔ id.data.takeWhile (fun c => c != '/') = []) := by
  have hmain : matchProvider id =
      ⟨(id.data.takeWhile (fun c => c != '/')).map jsToLowerChar⟩ := by
    unfold matchProvider
    cases hs : jsSplit '/' id.data with
    | nil => exact absurd hs (jsSplit_ne_nil _ _)
    | cons p rest =>
        have hh := jsSplit_headD '/' id.data
        rw [hs] at hh
        simp only [List.headD] at hh
        rw [hh]
  refine ⟨hmain, ?_, ?_⟩
  · intro hno
    rw [hmain]
    unfold lowerStr
    have ht : id.data.takeWhile (fun c => c != '/') = id.data := by
      apply List.takeWhile_eq_self_iff.mpr
      intro c hc
      simp only [bne_iff_ne, ne_eq]
      intro hceq
      exact hno (hceq ▸ hc)
    rw [ht]
  · rw [hmain]
    constructor
    · intro h
      have hd : ((id.data.takeWhile (fun c => c != '/')).map jsToLowerChar) = [] := by
        have := congrArg String.data h
        simpa using this
      exact List.map_eq_nil_iff.mp hd
    · intro h
      rw [h]
      rfl

/-- C3 counterexample: "openai" contains no "/" yet the derived provider is
"openai", not the empty string. -/
theorem matchProvider_no_slash_counterexample :
    (( '/' ) ∉ ("openai" : String).data) ∧ matchProvider "openai" = "openai" ∧
      matchProvider "openai" ≠ "" := by
  exact ⟨by decide, by decide, by decide⟩

/-- Witness for C3 on a concrete slash-free id. -/
theorem matchProvider_spec_witness : matchProvider "OpenAI" = lowerStr "OpenAI" :=
  (matchProvider_spec "OpenAI").2.1 (by decide)

/-! ### Claim C4: classifiers with only modelId/modelName -/

/-- C4 (amended): called with only modelId and modelName, supportsVision,
supportsAudio, supportsTools and supportsFileInput are false, while
supportsImageGeneration and supportsSearchCapability reduce to their keyword
fallback over the lower-cased name/id concatenation, hence are not always
false. -/
theorem capabilities_name_only (id name : String) :
    supportsVision none = false ∧ supportsAudio none = false ∧
    supportsTools none = false ∧ supportsFileInput none none = false ∧
    supportsImageGeneration none (some id) (some name) none =
      imageGenKeywords.any (fun kw =>
        jsIncludesStr (lowerStr name ++ " " ++ lowerStr id) kw) ∧
    supportsSearchCapability (some id) (some name) none none =
      searchKeywords.any (fun kw => jsIncludesStr (lowerStr (id ++ " " ++ name)) kw) :=
  ⟨rfl, rfl, rfl, rfl, rfl, rfl⟩

/-- C4 counterexample: ids hitting the image-generation and search keyword
lists make the two fallback classifiers true with no other fields given. -/
theorem capabilities_keyword_counterexample :
    supportsImageGeneration none (some "flux") (some "") none = true ∧
    supportsSearchCapability (some "sonar") (some "") none none = true := by
  exact ⟨by decide, by decide⟩

/-! ### Helper lemmas: the parser -/

theorem ok_bind {α β : Type} (a : α) (f : α → Except Unit β) :
    (Except.ok a >>= f : Except Unit β) = f a := rfl

theorem pure_eq_ok {α : Type} (a : α) : (pure a : Except Unit α) = Except.ok a := rfl

theorem str_eq_of_data {s t : String} (h : s.data = t.data) : s = t := by
  cases s
  cases t
  exact congrArg String.mk h

theorem getValue_ok (item : JValue) (h : item ≠ JValue.null) :
    ∀ keys : List String, ∃ o, getValue item keys = Except.ok o := by
  intro keys
  induction keys with
  | nil => exact ⟨none, rfl⟩
  | cons k ks ih =>
      cases hj : jsIndex item k with
      | error e =>
          exfalso
          cases item with
          | null => exact h rfl
          | bool b => simp [jsIndex] at hj
          | num q => simp [jsIndex] at hj
          | str s => simp [jsIndex] at hj
          | arr xs => simp [jsIndex] at hj
          | obj fs => simp [jsIndex] at hj
      | ok o =>
          cases o with
          | none =>
              obtain ⟨o2, ho2⟩ := ih
              exact ⟨o2, by simp [getValue, hj, ho2]⟩
          | some v => exact ⟨some v, by simp [getValue, hj]⟩

theorem getString_ok (item : JValue) (h : item ≠ JValue.null) (keys : List String) :
    ∃ s, getString item keys = Except.ok s := by
  obtain ⟨o, ho⟩ := getValue_ok item h keys
  unfold getString
  rw [ho]
  rcases o with _ | v
  · exact ⟨"", rfl⟩
  · rcases v with _ | b | q | s | xs | fs <;> exact ⟨_, rfl⟩

theorem getNumber_ok (item : JValue) (h : item ≠ JValue.null) (keys : List String) :
    ∃ v, getNumber item keys = Except.ok v := by
  obtain ⟨o, ho⟩ := getValue_ok item h keys
  unfold getNumber
  rw [ho]
  rcases o with _ | v
  · exact ⟨none, rfl⟩
  · rcases v with _ | b | q | s | xs | fs <;> exact ⟨_, rfl⟩

theorem parseItem_ok (item : JValue) (h : item ≠ JValue.null) :
    ∃ o, parseItem item = Except.ok o ∧
      ∀ r, o = some r → r.modelName ≠ "" ∧ r.creator ≠ "" := by
  obtain ⟨mn, hmn⟩ := getString_ok item h
    ["model_name", "name", "model", "modelName", "display_name"]
  have hnum : ∀ (path : String) (keys : List String), ∃ v,
      numAlias item path keys = Except.ok (v : Option ℚ) := by
    intro path keys
    unfold numAlias
    cases getNestedNumber item path with
    | some q => exact ⟨some q, rfl⟩
    | none => exact getNumber_ok item h keys
  obtain ⟨v1, hv1⟩ := hnum "evaluations.artificial_analysis_intelligence_index"
    ["intelligence_index", "intelligenceIndex"]
  obtain ⟨v2, hv2⟩ := hnum "evaluations.artificial_analysis_coding_index"
    ["coding_index", "codingIndex"]
  obtain ⟨v3, hv3⟩ := hnum "evaluations.artificial_analysis_math_index"
    ["math_index", "mathIndex"]
  obtain ⟨v4, hv4⟩ := getNumber_ok item h
    ["median_output_tokens_per_second", "output_speed", "outputSpeed"]
  obtain ⟨v5, hv5⟩ := getNumber_ok item h
    ["median_time_to_first_token_seconds", "latency", "ttft"]
  obtain ⟨v6, hv6⟩ := getNumber_ok item h ["price_input", "priceInput", "input_price"]
  obtain ⟨v7, hv7⟩ := getNumber_ok item h ["price_output", "priceOutput", "output_price"]
  by_cases hmne : mn = ""
  · refine ⟨none, ?_, fun r hr => Option.noConfusion hr⟩
    subst hmne
    simp [parseItem, hmn, ok_bind, pure_eq_ok]
  · by_cases hnest : getNestedString item "model_creator.name" = ""
    · obtain ⟨c2, hc2⟩ := getString_ok item h ["creator", "provider", "organization"]
      by_cases hc2e : c2 = ""
      · refine ⟨none, ?_, fun r hr => Option.noConfusion hr⟩
        subst hc2e
        simp [parseItem, hmn, hmne, hnest, hc2, ok_bind, pure_eq_ok]
      · refine ⟨some ⟨mn, c2, v1, v2, v3, v4, v5, v6, v7⟩, ?_, ?_⟩
        · simp [parseItem, hmn, hmne, hnest, hc2, hc2e, hv1, hv2, hv3, hv4, hv5, hv6, hv7,
            ok_bind, pure_eq_ok]
        · intro r hr
          obtain rfl : (⟨mn, c2, v1, v2, v3, v4, v5, v6, v7⟩ : ModelBenchmark) = r :=
            Option.some.inj hr
          exact ⟨hmne, hc2e⟩
    · refine ⟨some ⟨mn, getNestedString item "model_creator.name", v1, v2, v3, v4, v5, v6, v7⟩,
        ?_, ?_⟩
      · simp [parseItem, hmn, hmne, hnest, hv1, hv2, hv3, hv4, hv5, hv6, hv7,
          ok_bind, pure_eq_ok]
      · intro r hr
        obtain rfl : (⟨mn, getNestedString item "model_creator.name",
            v1, v2, v3, v4, v5, v6, v7⟩ : ModelBenchmark) = r := Option.some.inj hr
        exact ⟨hmne, hnest⟩

theorem mapM_parseItem_ok (P : Option ModelBenchmark → Prop) :
    ∀ xs : List JValue,
      (∀ x ∈ xs, ∃ o, parseItem x = Except.ok o ∧ P o) →
      ∃ os, xs.mapM parseItem = Except.ok os ∧ ∀ o ∈ os, P o := by
  intro xs
  induction xs with
  | nil => intro _; exact ⟨[], rfl, by simp⟩
  | cons x rest ih =>
      intro hall
      obtain ⟨o, ho, hPo⟩ := hall x (List.mem_cons_self x rest)
      obtain ⟨os, hos, hPos⟩ := ih (fun y hy => hall y (List.mem_cons_of_mem x hy))
      refine ⟨o :: os, ?_, ?_⟩
      · rw [List.mapM_cons, ho, ok_bind, hos, ok_bind, pure_eq_ok]
      · intro o2 ho2
        rcases List.mem_cons.mp ho2 with rfl | h2
        · exact hPo
        · exact hPos o2 h2

/-! ### Claim C5: the parser is total away from null items and keeps only
complete records -/

/-- C5 (amended): for every input whose extracted model list contains no
null item, parseBenchmarks returns normally, every returned record has a
non-empty modelName and a non-empty creator, and candidate items lacking a
required field are dropped silently (the result is still a normal return,
not an error).  A null item makes the JS code throw a TypeError. -/
theorem parseBenchmarks_no_null (raw : JValue)
    (h : ∀ item ∈ extractModelsArray raw, item ≠ JValue.null) :
    ∃ l, parseBenchmarks raw = Except.ok l ∧
      ∀ r ∈ l, r.modelName ≠ "" ∧ r.creator ≠ "" := by
  by_cases he : (extractModelsArray raw).isEmpty
  · exact ⟨[], by simp [parseBenchmarks, he], by simp⟩
  · obtain ⟨os, hos, hPos⟩ := mapM_parseItem_ok
      (fun o => ∀ r, o = some r → r.modelName ≠ "" ∧ r.creator ≠ "")
      (extractModelsArray raw) (fun x hx => parseItem_ok x (h x hx))
    refine ⟨os.filterMap id, ?_, ?_⟩
    · have hpb : parseBenchmarks raw =
          ((extractModelsArray raw).mapM parseItem >>= fun parsed =>
            pure (parsed.filterMap id)) := by
        simp only [parseBenchmarks]
        rw [if_neg he]
      rw [hpb, hos, ok_bind, pure_eq_ok]
    · intro r hr
      obtain ⟨o, hoin, hoid⟩ := List.mem_filterMap.mp hr
      simp only [id] at hoid
      exact hPos o hoin r hoid

/-- C5 counterexample: a null item inside the data envelope makes the JS
parser throw a TypeError (property access on null) instead of dropping it. -/
theorem parseBenchmarks_null_item_counterexample :
    parseBenchmarks (JValue.obj [("data", JValue.arr [JValue.null])]) = Except.error () := rfl

/-- Witness for C5 on a payload with one complete and one empty item. -/
theorem parseBenchmarks_no_null_witness :
    ∃ l, parseBenchmarks (JValue.obj [("data", JValue.arr
        [JValue.obj [("model_name", JValue.str "m"), ("creator", JValue.str "c")],
         JValue.obj []])]) = Except.ok l ∧
      ∀ r ∈ l, r.modelName ≠ "" ∧ r.creator ≠ "" := by
  apply parseBenchmarks_no_null
  intro item hitem
  have he : extractModelsArray (JValue.obj [("data", JValue.arr
      [JValue.obj [("model_name", JValue.str "m"), ("creator", JValue.str "c")],
       JValue.obj []])]) =
      [JValue.obj [("model_name", JValue.str "m"), ("creator", JValue.str "c")],
       JValue.obj []] := rfl
  rw [he] at hitem
  simp only [List.mem_cons, List.mem_singleton] at hitem
  rcases hitem with rfl | rfl | h
  · exact fun hc => JValue.noConfusion hc
  · exact fun hc => JValue.noConfusion hc
  · exact absurd h (List.not_mem_nil item)

/-! ### Claim C10: alias resolution takes the first defined key regardless
of type -/

/-- C10: getValue selects the first alias whose value is defined whatever
its type; a non-string under model_name makes getString resolve to the
empty string even though a usable string sits under the later alias name,
so the record is dropped. -/
theorem alias_first_defined_wins (v : JValue) (hv : ∀ s, v ≠ JValue.str s) :
    getValue (JValue.obj [("model_name", v), ("name", JValue.str "GPT-4"),
        ("creator", JValue.str "OpenAI")])
      ["model_name", "name", "model", "modelName", "display_name"] = Except.ok (some v) ∧
    getString (JValue.obj [("model_name", v), ("name", JValue.str "GPT-4"),
        ("creator", JValue.str "OpenAI")])
      ["model_name", "name", "model", "modelName", "display_name"] = Except.ok "" ∧
    parseBenchmarks (JValue.arr [JValue.obj [("model_name", v), ("name", JValue.str "GPT-4"),
        ("creator", JValue.str "OpenAI")]]) = Except.ok [] := by
  refine ⟨rfl, ?_, ?_⟩
  · cases v with
    | str s => exact absurd rfl (hv s)
    | null => rfl
    | bool b => rfl
    | num q => rfl
    | arr xs => rfl
    | obj fs => rfl
  · cases v with
    | str s => exact absurd rfl (hv s)
    | null => rfl
    | bool b => rfl
    | num q => rfl
    | arr xs => rfl
    | obj fs => rfl

/-- Witness for C10 with a numeric model_name. -/
theorem alias_first_defined_wins_witness :
    parseBenchmarks (JValue.arr [JValue.obj [("model_name", JValue.num 42),
        ("name", JValue.str "GPT-4"), ("creator", JValue.str "OpenAI")]]) = Except.ok [] :=
  (alias_first_defined_wins (JValue.num 42) (fun s hs => JValue.noConfusion hs)).2.2

/-! ### Claim C6: envelope extraction -/

/-- C6: parseBenchmarks yields identical record lists on a bare array and on
the data/models/results envelopes; the three keys are tried in the priority
order data, models, results, the first array-valued one winning; any input
matching none of these shapes parses to the empty list, not an error. -/
theorem parseBenchmarks_envelopes :
    (∀ L : List JValue,
      parseBenchmarks (JValue.obj [("data", JValue.arr L)]) = parseBenchmarks (JValue.arr L) ∧
      parseBenchmarks (JValue.obj [("models", JValue.arr L)]) = parseBenchmarks (JValue.arr L) ∧
      parseBenchmarks (JValue.obj [("results", JValue.arr L)]) = parseBenchmarks (JValue.arr L)) ∧
    (∀ (fields : List (String × JValue)) (L : List JValue),
      jGet fields "data" = some (JValue.arr L) →
      extractModelsArray (JValue.obj fields) = L) ∧
    (∀ (fields : List (String × JValue)) (L : List JValue),
      (∀ xs, jGet fields "data" ≠ some (JValue.arr xs)) →
      jGet fields "models" = some (JValue.arr L) →
      extractModelsArray (JValue.obj fields) = L) ∧
    (∀ (fields : List (String × JValue)) (L : List JValue),
      (∀ xs, jGet fields "data" ≠ some (JValue.arr xs)) →
      (∀ xs, jGet fields "models" ≠ some (JValue.arr xs)) →
      jGet fields "results" = some (JValue.arr L) →
      extractModelsArray (JValue.obj fields) = L) ∧
    (∀ raw : JValue, (∀ xs, raw ≠ JValue.arr xs) →
      (∀ fields, raw = JValue.obj fields →
        (∀ xs, jGet fields "data" ≠ some (JValue.arr xs)) ∧
        (∀ xs, jGet fields "models" ≠ some (JValue.arr xs)) ∧
        (∀ xs, jGet fields "results" ≠ some (JValue.arr xs))) →
      parseBenchmarks raw = Except.ok []) := by
  have hskip : ∀ (fields : List (String × JValue)) (key : String),
      (∀ xs, jGet fields key ≠ some (JValue.arr xs)) →
      (match jGet fields key with
        | some (JValue.arr xs) => xs
        | _ => ([] : List JValue)) = [] := by
    intro fields key hk
    cases hg : jGet fields key with
    | none => rfl
    | some v =>
        cases v with
        | arr xs => exact absurd hg (hk xs)
        | null => rfl
        | bool b => rfl
        | num q => rfl
        | str s => rfl
        | obj fs => rfl
  have hext : ∀ (fields : List (String × JValue)),
      extractModelsArray (JValue.obj fields) =
        (match jGet fields "data" with
          | some (JValue.arr xs) => xs
          | _ =>
            match jGet fields "models" with
            | some (JValue.arr xs) => xs
            | _ =>
              match jGet fields "results" with
              | some (JValue.arr xs) => xs
              | _ => []) := by
    intro fields
    rfl
  refine ⟨?_, ?_, ?_, ?_, ?_⟩
  · intro L
    exact ⟨rfl, rfl, rfl⟩
  · intro fields L hd
    rw [hext, hd]
  · intro fields L hnd hm
    rw [hext, hm]
    cases hg : jGet fields "data" with
    | none => rfl
    | some v =>
        cases v with
        | arr xs => exact absurd hg (hnd xs)
        | null => rfl
        | bool b => rfl
        | num q => rfl
        | str s => rfl
        | obj fs => rfl
  · intro fields L hnd hnm hr
    rw [hext, hr]
    cases hg : jGet fields "data" with
    | none =>
        cases hg2 : jGet fields "models" with
        | none => rfl
        | some v =>
            cases v with
            | arr xs => exact absurd hg2 (hnm xs)
            | null => rfl
            | bool b => rfl
            | num q => rfl
            | str s => rfl
            | obj fs => rfl
    | some v =>
        cases v with
        | arr xs => exact absurd hg (hnd xs)
        | null =>
            cases hg2 : jGet fields "models" with
            | none => rfl
            | some v2 =>
                cases v2 with
                | arr xs => exact absurd hg2 (hnm xs)
                | null => rfl
                | bool b => rfl
                | num q => rfl
                | str s => rfl
                | obj fs => rfl
        | bool b =>
            cases hg2 : jGet fields "models" with
            | none => rfl
            | some v2 =>
                cases v2 with
                | arr xs => exact absurd hg2 (hnm xs)
                | null => rfl
                | bool b2 => rfl
                | num q => rfl
                | str s => rfl
                | obj fs => rfl
        | num q =>
            cases hg2 : jGet fields "models" with
            | none => rfl
            | some v2 =>
                cases v2 with
                | arr xs => exact absurd hg2 (hnm xs)
                | null => rfl
                | bool b => rfl
                | num q2 => rfl
                | str s => rfl
                | obj fs => rfl
        | str s =>
            cases hg2 : jGet fields "models" with
            | none => rfl
            | some v2 =>
                cases v2 with
                | arr xs => exact absurd hg2 (hnm xs)
                | null => rfl
                | bool b => rfl
                | num q => rfl
                | str s2 => rfl
                | obj fs => rfl
        | obj fs =>
            cases hg2 : jGet fields "models" with
            | none => rfl
            | some v2 =>
                cases v2 with
                | arr xs => exact absurd hg2 (hnm xs)
                | null => rfl
                | bool b => rfl
                | num q => rfl
                | str s => rfl
                | obj fs2 => rfl
  · intro raw h1 h2
    cases raw with
    | arr xs => exact absurd rfl (h1 xs)
    | null => rfl
    | bool b => rfl
    | num q => rfl
    | str s => rfl
    | obj fields =>
        obtain ⟨hd, hm, hr⟩ := h2 fields rfl
        have hempty : extractModelsArray (JValue.obj fields) = [] := by
          rw [hext]
          cases hg : jGet fields "data" with
          | none =>
              cases hg2 : jGet fields "models" with
              | none => exact hskip fields "results" hr
              | some v2 =>
                  cases v2 with
                  | arr xs => exact absurd hg2 (hm xs)
                  | null => exact hskip fields "results" hr
                  | bool b => exact hskip fields "results" hr
                  | num q => exact hskip fields "results" hr
                  | str s => exact hskip fields "results" hr
                  | obj fs => exact hskip fields "results" hr
          | some v =>
              cases v with
              | arr xs => exact absurd hg (hd xs)
              | null =>
                  cases hg2 : jGet fields "models" with
                  | none => exact hskip fields "results" hr
                  | some v2 =>
                      cases v2 with
                      | arr xs => exact absurd hg2 (hm xs)
                      | null => exact hskip fields "results" hr
                      | bool b => exact hskip fields "results" hr
                      | num q => exact hskip fields "results" hr
                      | str s => exact hskip fields "results" hr
                      | obj fs => exact hskip fields "results" hr
              | bool b =>
                  cases hg2 : jGet fields "models" with
                  | none => exact hskip fields "results" hr
                  | some v2 =>
                      cases v2 with
                      | arr xs => exact absurd hg2 (hm xs)
                      | null => exact hskip fields "results" hr
                      | bool b2 => exact hskip fields "results" hr
                      | num q => exact hskip fields "results" hr
                      | str s => exact hskip fields "results" hr
                      | obj fs => exact hskip fields "results" hr
              | num q =>
                  cases hg2 : jGet fields "models" with
                  | none => exact hskip fields "results" hr
                  | some v2 =>
                      cases v2 with
                      | arr xs => exact absurd hg2 (hm xs)
                      | null => exact hskip fields "results" hr
                      | bool b => exact hskip fields "results" hr
                      | num q2 => exact hskip fields "results" hr
                      | str s => exact hskip fields "results" hr
                      | obj fs => exact hskip fields "results" hr
              | str s =>
                  cases hg2 : jGet fields "models" with
                  | none => exact hskip fields "results" hr
                  | some v2 =>
                      cases v2 with
                      | arr xs => exact absurd hg2 (hm xs)
                      | null => exact hskip fields "results" hr
                      | bool b => exact hskip fields "results" hr
                      | num q => exact hskip fields "results" hr
                      | str s2 => exact hskip fields "results" hr
                      | obj fs => exact hskip fields "results" hr
              | obj fs =>
                  cases hg2 : jGet fields "models" with
                  | none => exact hskip fields "results" hr
                  | some v2 =>
                      cases v2 with
                      | arr xs => exact absurd hg2 (hm xs)
                      | null => exact hskip fields "results" hr
                      | bool b => exact hskip fields "results" hr
                      | num q => exact hskip fields "results" hr
                      | str s => exact hskip fields "results" hr
                      | obj fs2 => exact hskip fields "results" hr
        simp [parseBenchmarks, hempty]

/-- Witness for C6: the results envelope is honored when data and models are
absent, and a non-envelope input parses to the empty list. -/
theorem parseBenchmarks_envelopes_witness :
    extractModelsArray (JValue.obj [("results", JValue.arr [JValue.str "r"])]) =
      [JValue.str "r"] ∧
    parseBenchmarks (JValue.str "nope") = Except.ok [] := by
  constructor
  · exact parseBenchmarks_envelopes.2.2.2.1 [("results", JValue.arr [JValue.str "r"])]
      [JValue.str "r"]
      (fun xs h => Option.noConfusion h)
      (fun xs h => Option.noConfusion h)
      rfl
  · exact parseBenchmarks_envelopes.2.2.2.2 (JValue.str "nope")
      (fun xs h => JValue.noConfusion h)
      (fun fields h => JValue.noConfusion h)

/-! ### Claim C2: extractProvider output shape -/

/-- C2 (amended): extractProvider returns "Unknown" for fewer than two
"/"-separated parts, the mapped (non-empty) display name for a known
lower-cased slug, and otherwise the slug with only its first character
upper-cased; the result is non-empty whenever the slug is non-empty, and
differs from the raw lower-cased slug whenever the slug starts with an
ASCII lowercase letter.  (An id like "/x" yields the empty string, and an id
like "123/m" yields the raw slug unchanged.) -/
theorem extractProvider_spec (id : String) :
    ((jsSplit '/' id.data).length < 2 → extractProvider id = "Unknown") ∧
    (2 ≤ (jsSplit '/' id.data).length →
      (∀ v, providerLookup (firstSlug id) = some v → extractProvider id = v ∧ v ≠ "") ∧
      (providerLookup (firstSlug id) = none →
        extractProvider id = capitalizeFirst (firstSlug id)) ∧
      (firstSlug id ≠ "" → extractProvider id ≠ "") ∧
      (∀ c rest, (firstSlug id).data = c :: rest → c ∈ azLower →
        extractProvider id ≠ firstSlug id)) := by
  constructor
  · intro hlt
    simp [extractProvider, hlt]
  · intro hge
    have hnlt : ¬ (jsSplit '/' id.data).length < 2 := not_lt.mpr hge
    refine ⟨?_, ?_, ?_, ?_⟩
    · intro v hv
      constructor
      · simp [extractProvider, hnlt, hv]
      · obtain ⟨p, hp, hp1, hp2⟩ := providerLookup_mem _ v hv
        exact hp2 ▸ (providerLookup_facts p hp).1
    · intro hnone
      simp [extractProvider, hnlt, hnone]
    · intro hne
      cases hv : providerLookup (firstSlug id) with
      | some v =>
          have heq : extractProvider id = v := by simp [extractProvider, hnlt, hv]
          rw [heq]
          obtain ⟨p, hp, hp1, hp2⟩ := providerLookup_mem _ v hv
          exact hp2 ▸ (providerLookup_facts p hp).1
      | none =>
          have heq : extractProvider id = capitalizeFirst (firstSlug id) := by
            simp [extractProvider, hnlt, hv]
          rw [heq]
          cases hd : (firstSlug id).data with
          | nil => exact absurd (str_eq_of_data (by rw [hd])) hne
          | cons c rest =>
              have hcap : capitalizeFirst (firstSlug id) = ⟨jsToUpperChar c :: rest⟩ := by
                simp [capitalizeFirst, hd]
              rw [hcap]
              intro hcontra
              have := congrArg String.data hcontra
              simp at this
    · intro c rest hd hc
      cases hv : providerLookup (firstSlug id) with
      | some v =>
          have heq : extractProvider id = v := by simp [extractProvider, hnlt, hv]
          rw [heq]
          obtain ⟨p, hp, hp1, hp2⟩ := providerLookup_mem _ v hv
          rw [← hp1, ← hp2]
          exact (providerLookup_facts p hp).2.1
      | none =>
          have heq : extractProvider id = capitalizeFirst (firstSlug id) := by
            simp [extractProvider, hnlt, hv]
          rw [heq]
          have hcap : capitalizeFirst (firstSlug id) = ⟨jsToUpperChar c :: rest⟩ := by
            simp [capitalizeFirst, hd]
          rw [hcap]
          intro hcontra
          have hdata := congrArg String.data hcontra
          rw [hd] at hdata
          have hdata2 : jsToUpperChar c :: rest = c :: rest := hdata
          exact jsToUpperChar_ne c hc (List.cons.inj hdata2).1

/-- C2 counterexample: an empty first part yields the empty string, and a
slug not starting with a letter is returned unchanged (equal to the raw
lower-case slug). -/
theorem extractProvider_shape_counterexample :
    extractProvider "/x" = "" ∧ extractProvider "123/m" = "123" ∧
      lowerStr "123" = "123" := by
  exact ⟨by decide, by decide, by decide⟩

/-- Witness for C2 on a mapped slug and an unmapped one. -/
theorem extractProvider_spec_witness :
    extractProvider "anthropic/claude" = "Anthropic" ∧
      extractProvider "foobar/x" ≠ firstSlug "foobar/x" := by
  constructor
  · exact (((extractProvider_spec "anthropic/claude").2 (by decide)).1 "Anthropic"
      (by decide)).1
  · exact ((extractProvider_spec "foobar/x").2 (by decide)).2.2.2 'f'
      ['o', 'o', 'b', 'a', 'r'] (by decide) (by decide)

/-! ### Claim C7: Unknown without a slash; the table wins case-insensitively -/

/-- C7: every id without a "/" maps to "Unknown", and for every table entry,
an id whose first "/"-part is any case variant of the slug maps to the exact
display name. -/
theorem extractProvider_unknown_and_table :
    (∀ id : String, (( '/' ) ∉ id.data) → extractProvider id = "Unknown") ∧
    (∀ (s rest : String) (p : String × String), p ∈ PROVIDER_MAP → lowerStr s = p.1 →
      extractProvider (s ++ "/" ++ rest) = p.2) := by
  constructor
  · intro id hno
    have hs := jsSplit_no_sep '/' id.data (fun c hc he => hno (he ▸ hc))
    simp [extractProvider, hs]
  · intro s rest p hp hlow
    have hkey : ∀ c ∈ (p.1 : String).data, c ≠ '/' := (providerLookup_facts p hp).2.2
    have hnos : ∀ c ∈ s.data, c ≠ '/' := by
      intro c hc he
      subst he
      have hmem : jsToLowerChar '/' ∈ (lowerStr s).data := by
        unfold lowerStr
        exact List.mem_map_of_mem jsToLowerChar hc
      rw [hlow] at hmem
      have h47 : jsToLowerChar '/' = '/' := by decide
      rw [h47] at hmem
      exact hkey '/' hmem rfl
    have hdata : (s ++ "/" ++ rest).data = s.data ++ '/' :: rest.data := by
      simp [String.data_append]
    have hsplit : jsSplit '/' ((s ++ "/" ++ rest).data) = s.data :: jsSplit '/' rest.data := by
      rw [hdata]
      exact jsSplit_append '/' s.data rest.data hnos
    have hlen : ¬ (jsSplit '/' ((s ++ "/" ++ rest).data)).length < 2 := by
      rw [hsplit]
      have hp1 : 1 ≤ (jsSplit '/' rest.data).length :=
        List.length_pos.mpr (jsSplit_ne_nil '/' rest.data)
      simp only [List.length_cons, not_lt]
      omega
    have hslug : firstSlug (s ++ "/" ++ rest) = p.1 := by
      unfold firstSlug
      rw [hsplit]
      simp only [List.headD_cons]
      rw [← hlow]
      rfl
    have hlook : providerLookup p.1 = some p.2 := providerLookup_self p hp
    unfold extractProvider
    rw [if_neg hlen, hslug, hlook]

/-- Witness for C7: a slash-free id and an upper-case variant of a table
slug. -/
theorem extractProvider_unknown_and_table_witness :
    extractProvider "abc" = "Unknown" ∧
      extractProvider ("X-AI" ++ "/" ++ "grok") = "xAI" := by
  constructor
  · exact extractProvider_unknown_and_table.1 "abc" (by decide)
  · exact extractProvider_unknown_and_table.2 "X-AI" "grok" ("x-ai", "xAI")
      (by decide) (by decide)

end ModelIntel
